import Mathlib

/-
Verification of the SQLite storage engine (eva/storage/sqlite_storage_engine.py).

The embedding below follows the source file closely:
  - `_dict_to_sql_row` / `_sql_row_to_dict` are the row codec (lines 46-67);
  - `writeRowData` / `writeEncodeRow` model the per-record encoding in `write`
    (lines 112-126);
  - `readAux` / `read` model the batched generator in `read` (lines 144-160);
  - `buildFilterClause` / `delete` model `delete` (lines 170-186);
  - `dropBody` / `drop` model `drop` (lines 90-102);
  - `rename` models `rename` (lines 188-189).

External collaborators that are not part of the source file (`PickleSerializer`,
`get_size`, the identifier-column constant) are modelled from the spec; each
such definition carries a doc comment starting with `Modelled from the spec`.
-/

namespace Eva

/-- Logical column types of the catalog (external enum consumed by the engine):
scalar types plus the N-dimensional array type `NDARRAY`. -/
inductive ColumnType
  | BOOLEAN
  | INTEGER
  | FLOAT
  | TEXT
  | NDARRAY
deriving DecidableEq

/-- An N-dimensional numeric array value (numpy ndarray): shape, dtype tag and
the raw element payload. -/
structure NdArray where
  shape : List Nat
  dtype : String
  data : List Int
deriving DecidableEq

/-- Python values as they flow through the engine: numpy arrays, numpy generic
integer scalars (such as np.int64), plain Python scalars, and pickled byte
strings.  `bytes v` stands for the pickle serialization of the object `v`. -/
inductive PyVal
  | arr : NdArray → PyVal
  | npInt : Int → PyVal
  | int : Int → PyVal
  | str : String → PyVal
  | bool : Bool → PyVal
  | bytes : PyVal → PyVal
deriving DecidableEq

/-- Modelled from the spec: `PickleSerializer.serialize` (eva.utils.generic_utils,
outside the given source tree) produces "a stable, reversible binary encoding
(shape + dtype + raw bytes, or equivalent)" of its argument.  The byte string is
represented abstractly as the tag `PyVal.bytes` wrapping the encoded object,
which is exactly a stable reversible encoding. -/
def PickleSerializer.serialize (v : PyVal) : PyVal :=
  PyVal.bytes v

/-- Modelled from the spec: `PickleSerializer.deserialize` inverts `serialize`;
applied to anything that is not a pickle byte string it fails (pickle.loads
raises), which the embedding reports as `none`. -/
def PickleSerializer.deserialize (v : PyVal) : Option PyVal :=
  match v with
  | PyVal.bytes w => some w
  | _ => none

/-- Test for numpy generic scalar wrappers, `isinstance(x, np.generic)` in the
source (line 51). -/
def isNpGeneric : PyVal → Bool
  | PyVal.npInt _ => true
  | _ => false

/-- Conversion of a numpy generic scalar to the corresponding plain Python
scalar, `x.tolist()` in the source (line 56), e.g. np.int64 → int. -/
def PyVal.tolist : PyVal → PyVal
  | PyVal.npInt i => PyVal.int i
  | v => v

/-- A column descriptor as supplied by the catalog: name and logical type. -/
structure DataFrameColumn where
  name : String
  type : ColumnType
deriving DecidableEq

/-- Modelled from the spec: the reserved identifier column name recognized
throughout the engine, `_row_id` (eva.catalog.sql_config.IDENTIFIER_COLUMN;
the `delete` source uses the literal string directly on line 172). -/
def IDENTIFIER_COLUMN : String :=
  "_row_id"

/-- A Python dict from column name to value, in insertion order. -/
abbrev DictRow := List (String × PyVal)

/-- Python dict lookup `d[k]`: the value at the first (and only) occurrence of
the key. -/
def dictGet : DictRow → String → Option PyVal
  | [], _ => none
  | p :: rest, k => if p.1 = k then some p.2 else dictGet rest k

/-- Python dict assignment `d[k] = v`: update the value in place when the key
exists, otherwise append the new binding at the end. -/
def dictSet : DictRow → String → PyVal → DictRow
  | [], k, v => [(k, v)]
  | p :: rest, k, v => if p.1 = k then (k, v) :: rest else p :: dictSet rest k v

/-- The write-time row encoder `_dict_to_sql_row` (source lines 46-57): for
every column of the given list, serialize the value of NDARRAY columns and
normalize numpy generic scalars via `tolist`; other values (and keys not in the
column list) pass through unchanged.  A missing key is a KeyError, reported as
`none`. -/
def _dict_to_sql_row : DictRow → List DataFrameColumn → Option DictRow
  | dict_row, [] => some dict_row
  | dict_row, col :: rest =>
    match dictGet dict_row col.name with
    | none => none
    | some v =>
      if col.type = ColumnType.NDARRAY then
        _dict_to_sql_row (dictSet dict_row col.name (PickleSerializer.serialize v)) rest
      else if isNpGeneric v then
        _dict_to_sql_row (dictSet dict_row col.name (PyVal.tolist v)) rest
      else
        _dict_to_sql_row dict_row rest

/-- Worker for `_sql_row_to_dict`: walks `enumerate(columns)` with the running
index into the positional sql row.  An out-of-range index is an IndexError and
a failing deserialization is a pickle error, both reported as `none`. -/
def sqlRowToDictAux (sql_row : List PyVal) : Nat → List DataFrameColumn → DictRow → Option DictRow
  | _, [], dict_row => some dict_row
  | idx, col :: rest, dict_row =>
    match sql_row[idx]? with
    | none => none
    | some v =>
      if col.type = ColumnType.NDARRAY then
        match PickleSerializer.deserialize v with
        | none => none
        | some w => sqlRowToDictAux sql_row (idx + 1) rest (dictSet dict_row col.name w)
      else
        sqlRowToDictAux sql_row (idx + 1) rest (dictSet dict_row col.name v)

/-- The read-time row decoder `_sql_row_to_dict` (source lines 59-67): builds a
fresh dict mapping each column name to the positionally matching tuple entry,
deserializing NDARRAY columns. -/
def _sql_row_to_dict (sql_row : List PyVal) (columns : List DataFrameColumn) : Option DictRow :=
  sqlRowToDictAux sql_row 0 columns []

/-- Python `==` on the values the engine stores: numpy integer scalars compare
equal to the plain integers they wrap; everything else compares by structural
equality within its own kind. -/
def pyEq : PyVal → PyVal → Bool
  | PyVal.arr a, PyVal.arr b => decide (a = b)
  | PyVal.npInt i, PyVal.npInt j => decide (i = j)
  | PyVal.npInt i, PyVal.int j => decide (i = j)
  | PyVal.int i, PyVal.npInt j => decide (i = j)
  | PyVal.int i, PyVal.int j => decide (i = j)
  | PyVal.str a, PyVal.str b => decide (a = b)
  | PyVal.bool a, PyVal.bool b => decide (a = b)
  | PyVal.bytes a, PyVal.bytes b => decide (a = b)
  | _, _ => false

/-- What `_dict_to_sql_row` does to a single cell of a column it processes. -/
def encCell (c : DataFrameColumn) (v : PyVal) : PyVal :=
  if c.type = ColumnType.NDARRAY then PickleSerializer.serialize v
  else if isNpGeneric v then PyVal.tolist v
  else v

/-- What `_sql_row_to_dict` does to a single cell of a column it processes. -/
def decCell (c : DataFrameColumn) (v : PyVal) : Option PyVal :=
  if c.type = ColumnType.NDARRAY then PickleSerializer.deserialize v
  else some v

/-- The value the encoded dict holds for a column (used to lay the encoded dict
out as the positional tuple the backing store hands back on select). -/
def valOf (enc : DictRow) (c : DataFrameColumn) : PyVal :=
  (dictGet enc c.name).getD (PyVal.int 0)

/-- The physical row produced from an encoded dict: values in physical column
order, as the backing store returns them on a full scan. -/
def tupleOfDict (enc : DictRow) (cols : List DataFrameColumn) : List PyVal :=
  cols.map (valOf enc)

/-- The physical identifier column, auto-assigned by the store and prepended
to every physical row. -/
def rowIdColumn : DataFrameColumn :=
  ⟨IDENTIFIER_COLUMN, ColumnType.INTEGER⟩

/-- Worker for `writeRowData`: the dict comprehension on source line 123,
pairing `enumerate(columns)` of the batch with `record[idx]`.  A record shorter
than the column list is an IndexError, reported as `none`. -/
def writeRowAux (record : List PyVal) : Nat → List String → DictRow → Option DictRow
  | _, [], acc => some acc
  | idx, c :: rest, acc =>
    match record[idx]? with
    | none => none
    | some v => writeRowAux record (idx + 1) rest (dictSet acc c v)

/-- The `row_data` dict built in `write` (source line 123) from the batch's
column names and one positional record. -/
def writeRowData (batch_columns : List String) (record : List PyVal) : Option DictRow :=
  writeRowAux record 0 batch_columns []

/-- The encoded row `write` sends to the store for one record (source lines
119-124): the `row_data` dict passed through `_dict_to_sql_row` with the
table's non-identifier columns. -/
def writeEncodeRow (table_cols : List DataFrameColumn) (batch_columns : List String)
    (record : List PyVal) : Option DictRow :=
  match writeRowData batch_columns record with
  | none => none
  | some row_data =>
    _dict_to_sql_row row_data (table_cols.filter (fun c => c.name ≠ IDENTIFIER_COLUMN))

/-- Worker for `read` (source lines 146-160): the scan loop threading the
accumulator `data_batch`, the once-computed `row_size` estimate, and the
batches yielded so far.  A row that fails to decode propagates the store
error, reported as `none`. -/
def readAux (getSize : List DictRow → Nat) (columns : List DataFrameColumn)
    (batch_mem_size : Nat) :
    List (List PyVal) → List DictRow → Option Nat → List (List DictRow) →
    Option (List (List DictRow))
  | [], data_batch, _, out =>
    some (if data_batch.isEmpty then out else out ++ [data_batch])
  | row :: rest, data_batch, row_size, out =>
    match _sql_row_to_dict row columns with
    | none => none
    | some d =>
      let db := data_batch ++ [d]
      let s := match row_size with
        | none => getSize db
        | some t => t
      if batch_mem_size ≤ db.length * s then
        readAux getSize columns batch_mem_size rest [] (some s) (out ++ [db])
      else
        readAux getSize columns batch_mem_size rest db (some s) out

/-- The batched full-table scan `read` (source lines 128-160), as the list of
batches the generator yields over the store's result rows.  `getSize` models
`get_size` from eva.utils.generic_utils (outside the given source tree), the
in-memory size of a list of decoded rows; it is kept as a parameter because
the spec fixes only that it measures in-memory size. -/
def read (getSize : List DictRow → Nat) (columns : List DataFrameColumn)
    (batch_mem_size : Nat) (result : List (List PyVal)) : Option (List (List DictRow)) :=
  readAux getSize columns batch_mem_size result [] none []

/-- Follows the spec's words (refinement target for the row-size-estimate
claim): the same scan loop with the row-size estimate held fixed at a single
value for every batch-boundary decision. -/
def readFixed (columns : List DataFrameColumn) (batch_mem_size row_size : Nat) :
    List (List PyVal) → List DictRow → List (List DictRow) → Option (List (List DictRow))
  | [], data_batch, out =>
    some (if data_batch.isEmpty then out else out ++ [data_batch])
  | row :: rest, data_batch, out =>
    match _sql_row_to_dict row columns with
    | none => none
    | some d =>
      let db := data_batch ++ [d]
      if batch_mem_size ≤ db.length * row_size then
        readFixed columns batch_mem_size row_size rest [] (out ++ [db])
      else
        readFixed columns batch_mem_size row_size rest db out

/-- The physical table as the backing store holds it: name, physical column
names (identifier column included) and the stored rows in physical column
order. -/
structure SqlTable where
  name : String
  colNames : List String
  rows : List (List PyVal)
deriving DecidableEq

/-- The valid predicate columns of `delete` (source lines 171-173): every
physical column except the identifier column. -/
def tableColumnsOf (t : SqlTable) : List String :=
  t.colNames.filter (fun c => c ≠ "_row_id")

/-- The error message raised for an unknown predicate column (source line 180). -/
def invalidColumnMsg (c : String) : String :=
  "where_clause contains a column " ++ c ++ " not in the table"

/-- The validation loop of `delete` (source lines 177-182): walk the predicate
pairs in order, raising on the first column not among the valid predicate
columns and otherwise collecting the equality filters. -/
def buildFilterClause (table_columns : List String) :
    List (String × PyVal) → Except String (List (String × PyVal))
  | [] => Except.ok []
  | q :: rest =>
    if q.1 ∈ table_columns then
      match buildFilterClause table_columns rest with
      | Except.error e => Except.error e
      | Except.ok fs => Except.ok (q :: fs)
    else
      Except.error (invalidColumnMsg q.1)

/-- One equality filter `sqlite_table.columns[column] == value` evaluated on a
stored row (source line 182). -/
def rowMatches (colNames : List String) (row : List PyVal) (f : String × PyVal) : Bool :=
  match colNames.indexOf? f.1 with
  | none => false
  | some i =>
    match row[i]? with
    | none => false
    | some v => pyEq v f.2

/-- The conjunction `and_(*filter_clause)` (source line 184); with zero
clauses SQLAlchemy's `and_()` is the true clause, i.e. an unconditional
WHERE. -/
def matchesAll (colNames : List String) (row : List PyVal)
    (filters : List (String × PyVal)) : Bool :=
  filters.all (rowMatches colNames row)

/-- The `delete` operation (source lines 162-186): validate the equality
predicate, then execute the conjunctive delete and commit.  The result pairs
the table state after the call with the raised error, if any; a raised
validation error leaves the table untouched because the raise on line 179
precedes the execute on line 185. -/
def delete (t : SqlTable) (where_clause : List (String × PyVal)) : SqlTable × Option String :=
  match buildFilterClause (tableColumnsOf t) where_clause with
  | Except.error e => (t, some e)
  | Except.ok filters =>
    (SqlTable.mk t.name t.colNames
      (t.rows.filter (fun r => !(matchesAll t.colNames r filters))), none)

/-- The KeyError message for a metadata lookup of an unknown table name. -/
def keyErrorMsg (t : String) : String :=
  "KeyError: " ++ t

/-- The body of `drop` inside the try block (source lines 91-98): look the
table up in the in-memory metadata (KeyError when absent), call the store's
drop (`storeDrop` injects the backing store's outcome), remove the cached
handle, then commit (`commitRes` injects the commit outcome).  Returns the
in-memory metadata state reached together with the raised error, if any. -/
def dropBody (storeDrop commitRes : Except String Unit) (tables : List String)
    (tname : String) : List String × Option String :=
  if tname ∈ tables then
    match storeDrop with
    | Except.error e => (tables, some e)
    | Except.ok _ =>
      match commitRes with
      | Except.error e => (tables.erase tname, some e)
      | Except.ok _ => (tables.erase tname, none)
  else
    (tables, some (keyErrorMsg tname))

/-- The `drop` operation (source lines 90-102): the try body with every
exception caught, logged and swallowed — the caller always gets the resulting
metadata state back and never an error. -/
def drop (storeDrop commitRes : Except String Unit) (tables : List String)
    (tname : String) : List String :=
  (dropBody storeDrop commitRes tables tname).1

/-- Table metadata as supplied by the catalog to every engine call. -/
structure DataFrameMetadata where
  name : String
  columns : List DataFrameColumn

/-- The parser's table reference handed to `rename` as the new name. -/
structure TableInfo where
  table_name : String

/-- The message of the unconditional raise in `rename` (source line 189). -/
def renameErrorMsg : String :=
  "Rename not supported for structured data table"

/-- The `rename` operation (source lines 188-189): it raises unconditionally
and interacts with no store state (the remaining body is commented out in the
source). -/
def rename (old_table : DataFrameMetadata) (new_name : TableInfo) : Except String Unit :=
  Except.error renameErrorMsg

/-- Concrete two-column table layout used by the witnesses: an integer column
and an array column. -/
def exCols : List DataFrameColumn :=
  [⟨"a", ColumnType.INTEGER⟩, ⟨"b", ColumnType.NDARRAY⟩]

/-- Concrete caller-supplied row over `exCols`: a numpy integer scalar and a
2x2 array. -/
def exRow : DictRow :=
  [("a", PyVal.npInt 5), ("b", PyVal.arr ⟨[2, 2], "int64", [1, 2, 3, 4]⟩)]

/-- Concrete size model for the witnesses: every decoded row occupies one unit,
so a list of rows measures its length. -/
def exGs : List DictRow → Nat :=
  fun l => l.length

/-- Concrete single-integer-column layout used by the read witnesses. -/
def exCols1 : List DataFrameColumn :=
  [⟨"a", ColumnType.INTEGER⟩]

/-- Concrete physical table used by the delete witnesses. -/
def exTable : SqlTable :=
  ⟨"T", ["_row_id", "a"], [[PyVal.int 1, PyVal.int 5]]⟩

/-- Concrete physical column metadata (identifier column included) used by the
identifier-column witnesses. -/
def exTableCols : List DataFrameColumn :=
  [⟨"_row_id", ColumnType.INTEGER⟩, ⟨"a", ColumnType.INTEGER⟩]

theorem dictGet_dictSet_same (d : DictRow) (k : String) (v : PyVal) :
    dictGet (dictSet d k v) k = some v := by
  induction d with
  | nil => simp [dictSet, dictGet]
  | cons p rest ih =>
    by_cases h : p.1 = k
    · simp [dictSet, dictGet, h]
    · simp [dictSet, dictGet, h, ih]

theorem dictGet_dictSet_ne (d : DictRow) (k k' : String) (v : PyVal) (h : k ≠ k') :
    dictGet (dictSet d k v) k' = dictGet d k' := by
  induction d with
  | nil => simp [dictSet, dictGet, h]
  | cons p rest ih =>
    by_cases hp : p.1 = k
    · simp [dictSet, dictGet, hp, h]
    · simp [dictSet, dictGet, hp, ih]

theorem dictGet_dictSet_isSome (d : DictRow) (k k' : String) (v : PyVal)
    (h : (dictGet d k').isSome = true) : (dictGet (dictSet d k v) k').isSome = true := by
  by_cases hk : k = k'
  · subst hk; simp [dictGet_dictSet_same]
  · rw [dictGet_dictSet_ne d k k' v hk]; exact h

theorem dictSet_self (d : DictRow) (k : String) (v : PyVal) (h : dictGet d k = some v) :
    dictSet d k v = d := by
  induction d with
  | nil => simp [dictGet] at h
  | cons p rest ih =>
    obtain ⟨a, b⟩ := p
    by_cases hp : a = k
    · subst hp
      simp [dictGet] at h
      simp [dictSet, h]
    · simp [dictGet, hp] at h
      simp [dictSet, hp, ih h]

theorem dtsr_get_of_not_mem :
    ∀ (cols : List DataFrameColumn) (d d' : DictRow) (k : String),
      _dict_to_sql_row d cols = some d' → k ∉ cols.map DataFrameColumn.name →
      dictGet d' k = dictGet d k := by
  intro cols
  induction cols with
  | nil =>
    intro d d' k h _
    simp [_dict_to_sql_row] at h
    rw [h]
  | cons col rest ih =>
    intro d d' k h hk
    simp only [List.map_cons, List.mem_cons, not_or] at hk
    obtain ⟨hk1, hk2⟩ := hk
    cases hv : dictGet d col.name with
    | none => simp [_dict_to_sql_row, hv] at h
    | some v =>
      by_cases ht : col.type = ColumnType.NDARRAY
      · simp [_dict_to_sql_row, hv, ht] at h
        rw [ih _ _ _ h hk2, dictGet_dictSet_ne _ _ _ _ (fun hh => hk1 hh.symm)]
      · by_cases hg : isNpGeneric v
        · simp [_dict_to_sql_row, hv, ht, hg] at h
          rw [ih _ _ _ h hk2, dictGet_dictSet_ne _ _ _ _ (fun hh => hk1 hh.symm)]
        · simp [_dict_to_sql_row, hv, ht, hg] at h
          exact ih _ _ _ h hk2

theorem dtsr_cons_eq (d : DictRow) (col : DataFrameColumn) (rest : List DataFrameColumn)
    (v : PyVal) (hv : dictGet d col.name = some v) :
    _dict_to_sql_row d (col :: rest) =
      _dict_to_sql_row (dictSet d col.name (encCell col v)) rest := by
  by_cases ht : col.type = ColumnType.NDARRAY
  · simp [_dict_to_sql_row, hv, ht, encCell]
  · by_cases hg : isNpGeneric v
    · simp [_dict_to_sql_row, hv, ht, hg, encCell]
    · simp [_dict_to_sql_row, hv, ht, hg, encCell, dictSet_self d col.name v hv]

theorem dtsr_spec :
    ∀ (cols : List DataFrameColumn) (d : DictRow),
      (cols.map DataFrameColumn.name).Nodup →
      (∀ c ∈ cols, (dictGet d c.name).isSome = true) →
      ∃ enc, _dict_to_sql_row d cols = some enc ∧
        ∀ c ∈ cols, ∀ v, dictGet d c.name = some v →
          dictGet enc c.name = some (encCell c v) := by
  intro cols
  induction cols with
  | nil =>
    intro d _ _
    exact ⟨d, rfl, by simp⟩
  | cons col rest ih =>
    intro d hnd hkeys
    obtain ⟨hcol, hndr⟩ : col.name ∉ rest.map DataFrameColumn.name ∧
        (rest.map DataFrameColumn.name).Nodup := by
      simpa [List.nodup_cons] using hnd
    obtain ⟨v0, hv0⟩ := Option.isSome_iff_exists.mp (hkeys col (by simp))
    have hkeys' : ∀ c ∈ rest,
        (dictGet (dictSet d col.name (encCell col v0)) c.name).isSome = true := by
      intro c hc
      exact dictGet_dictSet_isSome _ _ _ _ (hkeys c (by simp [hc]))
    obtain ⟨enc, henc, hget⟩ := ih (dictSet d col.name (encCell col v0)) hndr hkeys'
    refine ⟨enc, ?_, ?_⟩
    · rw [dtsr_cons_eq d col rest v0 hv0, henc]
    · intro c hc v hv
      rcases List.mem_cons.mp hc with hceq | hcr
      · subst hceq
        have hvv : v = v0 := by
          rw [hv] at hv0
          exact Option.some.inj hv0
        rw [hvv, dtsr_get_of_not_mem rest _ enc c.name henc hcol, dictGet_dictSet_same]
      · have hne : col.name ≠ c.name := by
          intro hh
          exact hcol (hh ▸ List.mem_map_of_mem DataFrameColumn.name hcr)
        have hv' : dictGet (dictSet d col.name (encCell col v0)) c.name = some v := by
          rw [dictGet_dictSet_ne _ _ _ _ hne]; exact hv
        exact hget c hcr v hv'

theorem srta_get_of_not_mem :
    ∀ (cols : List DataFrameColumn) (row : List PyVal) (idx : Nat) (acc d : DictRow) (k : String),
      sqlRowToDictAux row idx cols acc = some d → k ∉ cols.map DataFrameColumn.name →
      dictGet d k = dictGet acc k := by
  intro cols
  induction cols with
  | nil =>
    intro row idx acc d k h _
    simp [sqlRowToDictAux] at h
    rw [h]
  | cons col rest ih =>
    intro row idx acc d k h hk
    simp only [List.map_cons, List.mem_cons, not_or] at hk
    obtain ⟨hk1, hk2⟩ := hk
    cases hr : row[idx]? with
    | none => simp [sqlRowToDictAux, hr] at h
    | some v =>
      by_cases ht : col.type = ColumnType.NDARRAY
      · cases hd : PickleSerializer.deserialize v with
        | none => simp [sqlRowToDictAux, hr, ht, hd] at h
        | some w =>
          simp [sqlRowToDictAux, hr, ht, hd] at h
          rw [ih _ _ _ _ _ h hk2, dictGet_dictSet_ne _ _ _ _ (fun hh => hk1 hh.symm)]
      · simp [sqlRowToDictAux, hr, ht] at h
        rw [ih _ _ _ _ _ h hk2, dictGet_dictSet_ne _ _ _ _ (fun hh => hk1 hh.symm)]

theorem srta_isSome_mono :
    ∀ (cols : List DataFrameColumn) (row : List PyVal) (idx : Nat) (acc d : DictRow) (k : String),
      sqlRowToDictAux row idx cols acc = some d → (dictGet acc k).isSome = true →
      (dictGet d k).isSome = true := by
  intro cols
  induction cols with
  | nil =>
    intro row idx acc d k h hs
    simp [sqlRowToDictAux] at h
    rw [← h]; exact hs
  | cons col rest ih =>
    intro row idx acc d k h hs
    cases hr : row[idx]? with
    | none => simp [sqlRowToDictAux, hr] at h
    | some v =>
      by_cases ht : col.type = ColumnType.NDARRAY
      · cases hd : PickleSerializer.deserialize v with
        | none => simp [sqlRowToDictAux, hr, ht, hd] at h
        | some w =>
          simp [sqlRowToDictAux, hr, ht, hd] at h
          exact ih _ _ _ _ _ h (dictGet_dictSet_isSome _ _ _ _ hs)
      · simp [sqlRowToDictAux, hr, ht] at h
        exact ih _ _ _ _ _ h (dictGet_dictSet_isSome _ _ _ _ hs)

theorem srta_keys :
    ∀ (cols : List DataFrameColumn) (row : List PyVal) (idx : Nat) (acc d : DictRow),
      sqlRowToDictAux row idx cols acc = some d →
      ∀ c ∈ cols, (dictGet d c.name).isSome = true := by
  intro cols
  induction cols with
  | nil =>
    intro row idx acc d _ c hc
    simp at hc
  | cons col rest ih =>
    intro row idx acc d h c hc
    cases hr : row[idx]? with
    | none => simp [sqlRowToDictAux, hr] at h
    | some v =>
      by_cases ht : col.type = ColumnType.NDARRAY
      · cases hd : PickleSerializer.deserialize v with
        | none => simp [sqlRowToDictAux, hr, ht, hd] at h
        | some w =>
          simp [sqlRowToDictAux, hr, ht, hd] at h
          rcases List.mem_cons.mp hc with hceq | hcr
          · subst hceq
            exact srta_isSome_mono rest row (idx + 1) _ d c.name h
              (by rw [dictGet_dictSet_same]; rfl)
          · exact ih _ _ _ _ h c hcr
      · simp [sqlRowToDictAux, hr, ht] at h
        rcases List.mem_cons.mp hc with hceq | hcr
        · subst hceq
          exact srta_isSome_mono rest row (idx + 1) _ d c.name h
            (by rw [dictGet_dictSet_same]; rfl)
        · exact ih _ _ _ _ h c hcr

theorem drop_eq_cons_get {α : Type} :
    ∀ (l : List α) (idx : Nat) (x : α) (t : List α),
      l.drop idx = x :: t → l[idx]? = some x := by
  intro l
  induction l with
  | nil => intro idx x t h; simp at h
  | cons a l' ih =>
    intro idx x t h
    cases idx with
    | zero =>
      simp at h
      simp [h.1]
    | succ n =>
      simp only [List.drop_succ_cons] at h
      simpa using ih n x t h

theorem drop_succ_of_drop_cons {α : Type} :
    ∀ (l : List α) (idx : Nat) (x : α) (t : List α),
      l.drop idx = x :: t → l.drop (idx + 1) = t := by
  intro l
  induction l with
  | nil => intro idx x t h; simp at h
  | cons a l' ih =>
    intro idx x t h
    cases idx with
    | zero =>
      simp at h
      simp [h.2]
    | succ n =>
      simp only [List.drop_succ_cons] at h ⊢
      exact ih n x t h

theorem pyEq_refl (v : PyVal) : pyEq v v = true := by
  cases v <;> simp [pyEq]

theorem decCell_encCell (c : DataFrameColumn) (v : PyVal) :
    ∃ w, decCell c (encCell c v) = some w ∧ pyEq w v = true ∧
      (c.type = ColumnType.NDARRAY → w = v) := by
  by_cases ht : c.type = ColumnType.NDARRAY
  · refine ⟨v, ?_, pyEq_refl v, fun _ => rfl⟩
    simp [decCell, encCell, ht, PickleSerializer.serialize, PickleSerializer.deserialize]
  · refine ⟨encCell c v, by simp [decCell, ht], ?_, fun hh => absurd hh ht⟩
    by_cases hg : isNpGeneric v
    · cases v <;> simp [isNpGeneric] at hg
      simp [encCell, ht, isNpGeneric, PyVal.tolist, pyEq]
    · have hv : encCell c v = v := by simp [encCell, ht, hg]
      rw [hv]; exact pyEq_refl v

theorem srta_tuple_spec :
    ∀ (cols : List DataFrameColumn) (enc : DictRow) (row extra : List PyVal)
      (idx : Nat) (acc : DictRow),
      (cols.map DataFrameColumn.name).Nodup →
      row.drop idx = tupleOfDict enc cols ++ extra →
      (∀ c ∈ cols, (decCell c (valOf enc c)).isSome = true) →
      ∃ d, sqlRowToDictAux row idx cols acc = some d ∧
        ∀ c ∈ cols, dictGet d c.name = decCell c (valOf enc c) := by
  intro cols
  induction cols with
  | nil =>
    intro enc row extra idx acc _ _ _
    exact ⟨acc, rfl, by simp⟩
  | cons col rest ih =>
    intro enc row extra idx acc hnd hdrop hdec
    obtain ⟨hcol, hndr⟩ : col.name ∉ rest.map DataFrameColumn.name ∧
        (rest.map DataFrameColumn.name).Nodup := by
      simpa [List.nodup_cons] using hnd
    have hdrop1 : row.drop idx = valOf enc col :: (tupleOfDict enc rest ++ extra) := by
      simpa [tupleOfDict] using hdrop
    have hget : row[idx]? = some (valOf enc col) := drop_eq_cons_get row idx _ _ hdrop1
    have hdropS : row.drop (idx + 1) = tupleOfDict enc rest ++ extra :=
      drop_succ_of_drop_cons row idx _ _ hdrop1
    obtain ⟨w0, hw0⟩ := Option.isSome_iff_exists.mp (hdec col (by simp))
    by_cases ht : col.type = ColumnType.NDARRAY
    · have hdes : PickleSerializer.deserialize (valOf enc col) = some w0 := by
        simpa [decCell, ht] using hw0
      obtain ⟨d, hd, hprops⟩ := ih enc row extra (idx + 1) (dictSet acc col.name w0) hndr
        hdropS (fun c hc => hdec c (by simp [hc]))
      refine ⟨d, ?_, ?_⟩
      · simp [sqlRowToDictAux, hget, ht, hdes, hd]
      · intro c hc
        rcases List.mem_cons.mp hc with hceq | hcr
        · subst hceq
          rw [srta_get_of_not_mem rest row (idx + 1) _ d c.name hd hcol,
            dictGet_dictSet_same, hw0]
        · exact hprops c hcr
    · obtain ⟨d, hd, hprops⟩ := ih enc row extra (idx + 1)
        (dictSet acc col.name (valOf enc col)) hndr hdropS
        (fun c hc => hdec c (by simp [hc]))
      refine ⟨d, ?_, ?_⟩
      · simp [sqlRowToDictAux, hget, ht, hd]
      · intro c hc
        rcases List.mem_cons.mp hc with hceq | hcr
        · subst hceq
          rw [srta_get_of_not_mem rest row (idx + 1) _ d c.name hd hcol,
            dictGet_dictSet_same]
          simp [decCell, ht]
        · exact hprops c hcr

theorem dropLast_append_single {α : Type} (l : List α) (b : α) : (l ++ [b]).dropLast = l := by
  simp

theorem mem_of_mem_dropLast {α : Type} {l : List α} {b : α} (h : b ∈ l.dropLast) : b ∈ l :=
  List.dropLast_subset l h

theorem readAux_fixed (gs : List DictRow → Nat) (cols : List DataFrameColumn) (bms s : Nat) :
    ∀ (rows : List (List PyVal)) (db : List DictRow) (out : List (List DictRow)),
      readAux gs cols bms rows db (some s) out = readFixed cols bms s rows db out := by
  intro rows
  induction rows with
  | nil => intro db out; rfl
  | cons row rest ih =>
    intro db out
    cases hdec : _sql_row_to_dict row cols with
    | none => simp [readAux, readFixed, hdec]
    | some d =>
      simp only [readAux, readFixed, hdec]
      by_cases hc : bms ≤ (db ++ [d]).length * s
      · simp [hc, ih]
      · simp [hc, ih]

theorem readAux_inv (gs : List DictRow → Nat) (cols : List DataFrameColumn) (bms s : Nat)
    (hbms : 1 ≤ bms) :
    ∀ (rows : List (List PyVal)) (db : List DictRow) (rs : Option Nat)
      (out res : List (List DictRow)),
      readAux gs cols bms rows db rs out = some res →
      (∀ r ∈ rows, ∀ d, _sql_row_to_dict r cols = some d → gs [d] = s) →
      (rs = some s ∨ (rs = none ∧ db = [])) →
      db.length * s < bms →
      (∀ b ∈ out, bms ≤ b.length * s ∧ (b.length - 1) * s < bms) →
      ∀ b ∈ res.dropLast, bms ≤ b.length * s ∧ (b.length - 1) * s < bms := by
  intro rows
  induction rows with
  | nil =>
    intro db rs out res hrun _ _ _ hout
    simp only [readAux, Option.some.injEq] at hrun
    cases hdb0 : db.isEmpty with
    | true =>
      rw [hdb0] at hrun
      simp only [if_true] at hrun
      subst hrun
      intro b hb
      exact hout b (mem_of_mem_dropLast hb)
    | false =>
      rw [hdb0] at hrun
      simp only [Bool.false_eq_true, if_false] at hrun
      subst hrun
      intro b hb
      rw [dropLast_append_single] at hb
      exact hout b hb
  | cons row rest ih =>
    intro db rs out res hrun huni hrs hdb hout
    cases hdec : _sql_row_to_dict row cols with
    | none => simp [readAux, hdec] at hrun
    | some d =>
      have huni' : ∀ r ∈ rest, ∀ d', _sql_row_to_dict r cols = some d' → gs [d'] = s :=
        fun r hr => huni r (by simp [hr])
      rcases hrs with hrs1 | ⟨hrs1, hrs2⟩
      · subst hrs1
        simp only [readAux, hdec] at hrun
        by_cases hc : bms ≤ (db ++ [d]).length * s
        · rw [if_pos hc] at hrun
          refine ih [] (some s) (out ++ [db ++ [d]]) res hrun huni' (Or.inl rfl) ?_ ?_
          · simpa using hbms
          · intro b hb
            rcases List.mem_append.mp hb with hbo | hbn
            · exact hout b hbo
            · have hbeq : b = db ++ [d] := by simpa using hbn
              subst hbeq
              refine ⟨hc, ?_⟩
              have hlen : (db ++ [d]).length - 1 = db.length := by simp
              rw [hlen]
              exact hdb
        · rw [if_neg hc] at hrun
          exact ih (db ++ [d]) (some s) out res hrun huni' (Or.inl rfl)
            (Nat.lt_of_not_le hc) hout
      · subst hrs1
        subst hrs2
        simp only [readAux, hdec, List.nil_append] at hrun
        have hgs : gs [d] = s := huni row (by simp) d hdec
        rw [hgs] at hrun
        by_cases hc : bms ≤ [d].length * s
        · rw [if_pos hc] at hrun
          refine ih [] (some s) (out ++ [[d]]) res hrun huni' (Or.inl rfl) ?_ ?_
          · simpa using hbms
          · intro b hb
            rcases List.mem_append.mp hb with hbo | hbn
            · exact hout b hbo
            · have hbeq : b = [d] := by simpa using hbn
              subst hbeq
              refine ⟨hc, ?_⟩
              simpa using hbms
        · rw [if_neg hc] at hrun
          exact ih [d] (some s) out res hrun huni' (Or.inl rfl)
            (Nat.lt_of_not_le hc) hout

theorem writeRowAux_get_of_not_mem :
    ∀ (bcols : List String) (record : List PyVal) (idx : Nat) (acc rd : DictRow) (k : String),
      writeRowAux record idx bcols acc = some rd → k ∉ bcols →
      dictGet rd k = dictGet acc k := by
  intro bcols
  induction bcols with
  | nil =>
    intro record idx acc rd k h _
    simp [writeRowAux] at h
    rw [h]
  | cons c rest ih =>
    intro record idx acc rd k h hk
    simp only [List.mem_cons, not_or] at hk
    obtain ⟨hk1, hk2⟩ := hk
    cases hr : record[idx]? with
    | none => simp [writeRowAux, hr] at h
    | some v =>
      simp [writeRowAux, hr] at h
      rw [ih _ _ _ _ _ h hk2, dictGet_dictSet_ne _ _ _ _ (fun hh => hk1 hh.symm)]

theorem writeRowData_no_identifier (bcols : List String) (record : List PyVal) (rd : DictRow)
    (h : writeRowData bcols record = some rd) (hk : IDENTIFIER_COLUMN ∉ bcols) :
    dictGet rd IDENTIFIER_COLUMN = none := by
  have := writeRowAux_get_of_not_mem bcols record 0 [] rd IDENTIFIER_COLUMN h hk
  simpa [dictGet] using this

theorem filter_no_identifier (tcols : List DataFrameColumn) :
    IDENTIFIER_COLUMN ∉
      (tcols.filter (fun c => c.name ≠ IDENTIFIER_COLUMN)).map DataFrameColumn.name := by
  intro h
  obtain ⟨c, hc, hname⟩ := List.mem_map.mp h
  have := (List.mem_filter.mp hc).2
  rw [hname] at this
  simp at this

theorem buildFilterClause_raises (tcols : List String) :
    ∀ (wc : List (String × PyVal)), (∃ p ∈ wc, p.1 ∉ tcols) →
      ∃ e, buildFilterClause tcols wc = Except.error e := by
  intro wc
  induction wc with
  | nil =>
    rintro ⟨p, hp, _⟩
    simp at hp
  | cons q rest ih =>
    rintro ⟨p, hp, hnot⟩
    by_cases hq : q.1 ∈ tcols
    · have hpr : p ∈ rest := by
        rcases List.mem_cons.mp hp with hpq | hpr
        · subst hpq; exact absurd hq hnot
        · exact hpr
      obtain ⟨e, he⟩ := ih ⟨p, hpr, hnot⟩
      exact ⟨e, by simp [buildFilterClause, hq, he]⟩
    · exact ⟨invalidColumnMsg q.1, by simp [buildFilterClause, hq]⟩

theorem identifier_not_in_tableColumns (t : SqlTable) :
    IDENTIFIER_COLUMN ∉ tableColumnsOf t := by
  intro h
  have := (List.mem_filter.mp h).2
  simp [IDENTIFIER_COLUMN] at this

/-- C1: for every table (distinct non-identifier column names, every column
present in the supplied row) and every row written via `write` and read back
via `read`, each non-identifier column value of the decoded row equals the
originally supplied value under Python equality; in particular every
NDARRAY-column value round-trips bit-exactly through serialize/deserialize
(`_sql_row_to_dict` after `_dict_to_sql_row`). -/
theorem write_read_roundtrip (cols : List DataFrameColumn) (d : DictRow) (rid : PyVal)
    (hnd : (cols.map DataFrameColumn.name).Nodup)
    (hrid : IDENTIFIER_COLUMN ∉ cols.map DataFrameColumn.name)
    (hkeys : ∀ c ∈ cols, (dictGet d c.name).isSome = true) :
    ∃ enc dec,
      _dict_to_sql_row d cols = some enc ∧
      _sql_row_to_dict (rid :: tupleOfDict enc cols) (rowIdColumn :: cols) = some dec ∧
      ∀ c ∈ cols, ∀ v, dictGet d c.name = some v →
        ∃ w, dictGet dec c.name = some w ∧ pyEq w v = true ∧
          (c.type = ColumnType.NDARRAY → w = v) := by
  obtain ⟨enc, henc, hget⟩ := dtsr_spec cols d hnd hkeys
  have hval : ∀ c ∈ cols, ∀ v, dictGet d c.name = some v → valOf enc c = encCell c v := by
    intro c hc v hv
    simp [valOf, hget c hc v hv]
  have hdecS : ∀ c ∈ cols, (decCell c (valOf enc c)).isSome = true := by
    intro c hc
    obtain ⟨v, hv⟩ := Option.isSome_iff_exists.mp (hkeys c hc)
    rw [hval c hc v hv]
    obtain ⟨w, hw, _, _⟩ := decCell_encCell c v
    simp [hw]
  have hdropH : (rid :: tupleOfDict enc cols).drop 1 = tupleOfDict enc cols ++ [] := by
    simp
  obtain ⟨dec, hdec, hprops⟩ := srta_tuple_spec cols enc (rid :: tupleOfDict enc cols)
    [] 1 (dictSet [] IDENTIFIER_COLUMN rid) hnd hdropH hdecS
  refine ⟨enc, dec, henc, ?_, ?_⟩
  · have hstep : sqlRowToDictAux (rid :: tupleOfDict enc cols) 0 (rowIdColumn :: cols) [] =
        sqlRowToDictAux (rid :: tupleOfDict enc cols) 1 cols
          (dictSet [] IDENTIFIER_COLUMN rid) := by
      simp [sqlRowToDictAux, rowIdColumn]
    unfold _sql_row_to_dict
    rw [hstep]
    exact hdec
  · intro c hc v hv
    obtain ⟨w, hw, hpy, hnda⟩ := decCell_encCell c v
    refine ⟨w, ?_, hpy, hnda⟩
    rw [hprops c hc, hval c hc v hv, hw]

/-- Witness for C1: a concrete row with a numpy integer scalar and a 2x2
array round-trips through the codec. -/
theorem write_read_roundtrip_witness :
    ∃ enc dec,
      _dict_to_sql_row exRow exCols = some enc ∧
      _sql_row_to_dict (PyVal.int 1 :: tupleOfDict enc exCols) (rowIdColumn :: exCols) =
        some dec ∧
      ∀ c ∈ exCols, ∀ v, dictGet exRow c.name = some v →
        ∃ w, dictGet dec c.name = some w ∧ pyEq w v = true ∧
          (c.type = ColumnType.NDARRAY → w = v) :=
  write_read_roundtrip exCols exRow (PyVal.int 1) (by decide) (by decide) (by decide)

/-- C2 (amended: the memory ceiling is at least 1): for every read call with
ceiling `bms ≥ 1` over a table whose decoded rows all have the same measured
size `s`, every yielded batch except possibly the last reaches the ceiling
(`row_count * s ≥ bms`) and removing one row from it would drop strictly below
the ceiling. -/
theorem read_batch_maximality (gs : List DictRow → Nat) (cols : List DataFrameColumn)
    (bms s : Nat) (hbms : 1 ≤ bms) (rows : List (List PyVal)) (res : List (List DictRow))
    (huni : ∀ r ∈ rows, ∀ d, _sql_row_to_dict r cols = some d → gs [d] = s)
    (hrun : read gs cols bms rows = some res) :
    ∀ b ∈ res.dropLast, bms ≤ b.length * s ∧ (b.length - 1) * s < bms :=
  readAux_inv gs cols bms s hbms rows [] none [] res hrun huni (Or.inr ⟨rfl, rfl⟩)
    (by simpa using hbms) (by simp)

/-- Witness for C2: three unit-size rows with ceiling 2 produce a maximal
two-row batch (reaching the ceiling, one row short of it falling strictly
below) followed by a final one-row batch. -/
theorem read_batch_maximality_witness :
    2 ≤ ([[("a", PyVal.int 1)], [("a", PyVal.int 2)]] : List DictRow).length * 1 ∧
    (([[("a", PyVal.int 1)], [("a", PyVal.int 2)]] : List DictRow).length - 1) * 1 < 2 :=
  read_batch_maximality exGs exCols1 2 1 (by decide)
    [[PyVal.int 1], [PyVal.int 2], [PyVal.int 3]]
    [[[("a", PyVal.int 1)], [("a", PyVal.int 2)]], [[("a", PyVal.int 3)]]]
    (fun r hr d hd => rfl) rfl
    [[("a", PyVal.int 1)], [("a", PyVal.int 2)]] (by decide)

/-- Counterexample for C2 as stated: with ceiling 0 every batch is a
singleton, the rows are uniform unit-size, yet a non-final batch does not
become strictly smaller than the ceiling when one row is removed
(`0 < 0` fails), so the claim needs the ceiling to be positive. -/
theorem read_zero_ceiling_cex :
    read exGs exCols1 0 [[PyVal.int 1], [PyVal.int 2]] =
      some [[[("a", PyVal.int 1)]], [[("a", PyVal.int 2)]]] ∧
    (∀ r ∈ [[PyVal.int 1], [PyVal.int 2]], ∀ d,
      _sql_row_to_dict r exCols1 = some d → exGs [d] = 1) ∧
    ¬ (∀ b ∈ ([[[("a", PyVal.int 1)]],
          [[("a", PyVal.int 2)]]] : List (List DictRow)).dropLast,
        0 ≤ b.length * 1 ∧ (b.length - 1) * 1 < 0) := by
  refine ⟨rfl, fun r hr d hd => rfl, ?_⟩
  intro h
  have h2 := (h [[("a", PyVal.int 1)]] (by decide)).2
  simp at h2

/-- C3: a delete whose equality predicate names a column that is not a valid
predicate column raises the invalid-predicate-column error before any delete
statement executes, and the table is unchanged (zero rows deleted). -/
theorem delete_unknown_column_raises (t : SqlTable) (wc : List (String × PyVal))
    (h : ∃ p ∈ wc, p.1 ∉ tableColumnsOf t) :
    ∃ e, delete t wc = (t, some e) := by
  obtain ⟨e, he⟩ := buildFilterClause_raises (tableColumnsOf t) wc h
  exact ⟨e, by simp [delete, he]⟩

/-- Witness for C3: deleting with an unknown predicate column on a concrete
table raises and leaves the table unchanged. -/
theorem delete_unknown_column_raises_witness :
    ∃ e, delete exTable [("zzz", PyVal.int 0)] = (exTable, some e) :=
  delete_unknown_column_raises exTable [("zzz", PyVal.int 0)]
    ⟨("zzz", PyVal.int 0), by decide, by decide⟩

/-- C4 (amended): `write` never requires the identifier column — whenever the
caller's batch does not itself contain a column named `_row_id`, the encoded
row sent to the store never includes it (a batch that does supply `_row_id`
is passed through unchecked, see the counterexample); and for every read call
whose column metadata lists the identifier column, every successfully decoded
output row contains it. -/
theorem identifier_column_policy :
    (∀ (table_cols : List DataFrameColumn) (batch_columns : List String)
        (record : List PyVal) (enc : DictRow),
        IDENTIFIER_COLUMN ∉ batch_columns →
        writeEncodeRow table_cols batch_columns record = some enc →
        dictGet enc IDENTIFIER_COLUMN = none) ∧
    (∀ (sql_row : List PyVal) (columns : List DataFrameColumn) (d : DictRow),
        IDENTIFIER_COLUMN ∈ columns.map DataFrameColumn.name →
        _sql_row_to_dict sql_row columns = some d →
        (dictGet d IDENTIFIER_COLUMN).isSome = true) := by
  constructor
  · intro table_cols bcols record enc hb he
    cases hw : writeRowData bcols record with
    | none =>
      unfold writeEncodeRow at he
      rw [hw] at he
      exact Option.noConfusion he
    | some rd =>
      unfold writeEncodeRow at he
      rw [hw] at he
      have he' : _dict_to_sql_row rd
          (table_cols.filter (fun c => c.name ≠ IDENTIFIER_COLUMN)) = some enc := he
      have h1 : dictGet rd IDENTIFIER_COLUMN = none :=
        writeRowData_no_identifier bcols record rd hw hb
      have h2 := dtsr_get_of_not_mem _ rd enc IDENTIFIER_COLUMN he'
        (filter_no_identifier table_cols)
      rw [h2, h1]
  · intro row columns d hmem hdec
    obtain ⟨c, hc, hname⟩ := List.mem_map.mp hmem
    have h := srta_keys columns row 0 [] d hdec c hc
    rw [hname] at h
    exact h

/-- Witness for C4: a batch without `_row_id` encodes to a row without the
identifier column, and decoding with identifier-bearing metadata always
yields the identifier column. -/
theorem identifier_column_policy_witness :
    dictGet [("a", PyVal.int 5)] IDENTIFIER_COLUMN = none ∧
    (dictGet [("_row_id", PyVal.int 1), ("a", PyVal.int 5)] IDENTIFIER_COLUMN).isSome =
      true :=
  ⟨identifier_column_policy.1 exTableCols ["a"] [PyVal.int 5] [("a", PyVal.int 5)]
      (by decide) rfl,
    identifier_column_policy.2 [PyVal.int 1, PyVal.int 5] exTableCols
      [("_row_id", PyVal.int 1), ("a", PyVal.int 5)] (by decide) rfl⟩

/-- Counterexample for C4 as stated: a caller-supplied batch that contains the
reserved `_row_id` column is accepted, and the encoded row sent to the store
does include the identifier column. -/
theorem identifier_passthrough_cex :
    writeEncodeRow exTableCols ["_row_id", "a"] [PyVal.int 7, PyVal.int 5] =
      some [("_row_id", PyVal.int 7), ("a", PyVal.int 5)] ∧
    dictGet [("_row_id", PyVal.int 7), ("a", PyVal.int 5)] IDENTIFIER_COLUMN =
      some (PyVal.int 7) :=
  ⟨rfl, rfl⟩

/-- C5: the row-size estimate is computed exactly once, from the measured size
of the accumulator at the moment it first holds one decoded row, and the rest
of the scan runs with that single value fixed for every batch-boundary
decision (`readFixed` is the estimate-held-fixed scan written from the spec's
words). -/
theorem row_size_estimate_once (gs : List DictRow → Nat) (cols : List DataFrameColumn)
    (bms : Nat) (r : List PyVal) (rest : List (List PyVal)) (d0 : DictRow)
    (hd : _sql_row_to_dict r cols = some d0) :
    read gs cols bms (r :: rest) =
      if bms ≤ gs [d0] then readFixed cols bms (gs [d0]) rest [] [[d0]]
      else readFixed cols bms (gs [d0]) rest [d0] [] := by
  unfold read
  simp only [readAux, hd, List.nil_append, List.length_singleton, one_mul, readAux_fixed]

/-- Witness for C5 at a concrete two-row scan with ceiling 2. -/
theorem row_size_estimate_once_witness :
    read exGs exCols1 2 [[PyVal.int 1], [PyVal.int 2]] =
      if 2 ≤ exGs [[("a", PyVal.int 1)]] then
        readFixed exCols1 2 (exGs [[("a", PyVal.int 1)]]) [[PyVal.int 2]] []
          [[[("a", PyVal.int 1)]]]
      else
        readFixed exCols1 2 (exGs [[("a", PyVal.int 1)]]) [[PyVal.int 2]]
          [[("a", PyVal.int 1)]] [] :=
  row_size_estimate_once exGs exCols1 2 [PyVal.int 1] [[PyVal.int 2]]
    [("a", PyVal.int 1)] rfl

/-- C6: a read over a table with zero rows yields zero batches, not a single
empty batch. -/
theorem read_empty_table (gs : List DictRow → Nat) (cols : List DataFrameColumn)
    (bms : Nat) : read gs cols bms [] = some [] :=
  rfl

/-- C7: every rename call raises the unsupported-operation error, regardless
of its arguments, and performs no store interaction (the model takes no store
state at all). -/
theorem rename_always_fails (old_table : DataFrameMetadata) (new_name : TableInfo) :
    rename old_table new_name = Except.error renameErrorMsg :=
  rfl

/-- C8: every failure inside drop's store interaction — missing relation,
store drop failure, commit failure — is caught and never propagated: drop
always returns a metadata state (the unchanged one, or the one with the table
removed), and in particular a store-level drop failure leaves the metadata
unchanged, as does a missing relation. -/
theorem drop_swallows_store_errors (storeDrop commitRes : Except String Unit)
    (tables : List String) (tname : String) :
    (drop storeDrop commitRes tables tname = tables ∨
      drop storeDrop commitRes tables tname = tables.erase tname) ∧
    (∀ e, storeDrop = Except.error e → drop storeDrop commitRes tables tname = tables) ∧
    (tname ∉ tables → drop storeDrop commitRes tables tname = tables) := by
  unfold drop dropBody
  by_cases hm : tname ∈ tables
  · cases storeDrop with
    | error e => simp [hm]
    | ok u =>
      cases commitRes with
      | error e2 => simp [hm]
      | ok u2 => simp [hm]
  · simp [hm]

/-- Witness for C8: a failing store drop is swallowed and the metadata comes
back unchanged. -/
theorem drop_swallows_store_errors_witness :
    drop (Except.error ("store failure")) (Except.ok ()) ["t1"] "t1" = ["t1"] :=
  (drop_swallows_store_errors (Except.error ("store failure")) (Except.ok ())
      ["t1"] "t1").2.1 ("store failure") rfl

/-- C9: a delete with an empty equality predicate raises no validation error
and executes with the empty conjunction, an unconditional WHERE, so every row
of the table is deleted. -/
theorem delete_empty_predicate (t : SqlTable) :
    delete t [] = (SqlTable.mk t.name t.colNames [], none) := by
  have hall : ∀ rows : List (List PyVal),
      rows.filter (fun r => !(matchesAll t.colNames r [])) = [] := by
    intro rows
    induction rows with
    | nil => rfl
    | cons r rs ih => simp [List.filter, matchesAll, ih]
  simp [delete, buildFilterClause, hall]

/-- C10: a delete whose equality predicate names the reserved identifier
column `_row_id` raises the unknown-predicate-column error and deletes
nothing, even though `_row_id` is a physical column of the table, because the
identifier column is excluded from the valid predicate columns. -/
theorem delete_identifier_predicate_raises (t : SqlTable) (wc : List (String × PyVal))
    (v : PyVal) (hin : (IDENTIFIER_COLUMN, v) ∈ wc)
    (hphys : IDENTIFIER_COLUMN ∈ t.colNames) :
    ∃ e, delete t wc = (t, some e) := by
  obtain ⟨e, he⟩ := buildFilterClause_raises (tableColumnsOf t) wc
    ⟨(IDENTIFIER_COLUMN, v), hin, identifier_not_in_tableColumns t⟩
  exact ⟨e, by simp [delete, he]⟩

/-- Witness for C10: deleting by `_row_id` on a table that physically has the
`_row_id` column raises and deletes nothing. -/
theorem delete_identifier_predicate_raises_witness :
    ∃ e, delete exTable [("_row_id", PyVal.int 1)] = (exTable, some e) :=
  delete_identifier_predicate_raises exTable [("_row_id", PyVal.int 1)] (PyVal.int 1)
    (by decide) (by decide)

end Eva
